import Mathlib

/-!
# Verification of the bk-cli API client layer

Shallow embedding of the core of the `bk-cli` repository (files `bk.py` and
`display.py`): the Pipeline/Job/Build data model, the build-summary formatter,
and the Buildkite API client operations.  Network I/O is modelled by passing
the (decoded) API responses as explicit arguments; the requests an operation
would issue are returned as an explicit log.  Python's float computation
`finished_jobs * 100 / total_jobs` rendered with `%.0f` is modelled as the
exact rational together with IEEE round-half-to-even, which coincides with the
float behaviour for every job count the client can produce.
-/

namespace BkCli

/-- `BASE_URL` constant of `bk.py` (note: it already ends in the org segment
`/retool`). -/
def BASE_URL : String := "https://buildkite.com/retool"

/-- `BUILD_FINISHED_STATES` of `bk.py`. -/
def BUILD_FINISHED_STATES : List String :=
  ["SKIPPED", "PASSED", "FAILED", "CANCELED"]

/-- `BUILD_RUNNING_STATES` of `bk.py`. -/
def BUILD_RUNNING_STATES : List String :=
  ["CREATING", "RUNNING", "FAILING", "CANCELING", "BLOCKED", "SCHEDULED"]

/-- `JOB_FINISHED_STATES` of `bk.py`. -/
def JOB_FINISHED_STATES : List String :=
  ["BLOCKED_FAILED", "UNBLOCKED_FAILED", "FINISHED", "CANCELED", "TIMED_OUT", "SKIPPED"]

/-- The `Pipeline` dataclass of `bk.py`. -/
structure Pipeline where
  name : String
  color : String
  slug : String
deriving Repr, DecidableEq

/-- The `Job` dataclass of `bk.py`. -/
structure Job where
  state : String
  passed : Bool
deriving Repr, DecidableEq

/-- The `Build` dataclass of `bk.py`. -/
structure Build where
  number : Int
  commit_message : String
  pipeline : Pipeline
  state : String
  jobs : List Job := []
deriving Repr, DecidableEq

/-- The derived `Build.url` property of `bk.py`:
`f"{BASE_URL}/{self.pipeline.slug}/builds/{self.number}"`. -/
def Build.url (b : Build) : String :=
  BASE_URL ++ "/" ++ b.pipeline.slug ++ "/builds/" ++ toString b.number

/-! ## The formatter of `display.py` -/

/-- Characters stripped by Python's `str.rstrip()` (the ASCII whitespace
characters a state string could realistically contain). -/
def pyIsSpace (c : Char) : Bool :=
  c = ' ' || c = '\t' || c = '\n' || c = '\r' || c = '\x0b' || c = '\x0c'

/-- Python format-spec `<w` (left-align, pad with spaces on the right,
no truncation). -/
def pyPadRight (s : String) (w : Nat) : String :=
  s ++ String.mk (List.replicate (w - s.length) ' ')

/-- Python format-spec `>w` (right-align, pad with spaces on the left,
no truncation). -/
def pyPadLeft (s : String) (w : Nat) : String :=
  String.mk (List.replicate (w - s.length) ' ') ++ s

/-- Python's `str.rstrip()`. -/
def pyRstrip (s : String) : String :=
  String.mk ((s.toList.reverse.dropWhile pyIsSpace).reverse)

/-- Round half to even on rationals: the rounding used by IEEE-754 binary
arithmetic when Python renders `finished_jobs * 100 / total_jobs` with the
format spec `.0f`. -/
def rhe (q : ℚ) : ℤ :=
  if q - ⌊q⌋ < 1 / 2 then ⌊q⌋
  else if 1 / 2 < q - ⌊q⌋ then ⌊q⌋ + 1
  else if ⌊q⌋ % 2 = 0 then ⌊q⌋ else ⌊q⌋ + 1

/-- `total_jobs` of `display_build`: `len(build.jobs)`. -/
def total_jobs (b : Build) : Nat := b.jobs.length

/-- `finished_jobs` of `display_build`:
`sum(1 for job in build.jobs if job.state in JOB_FINISHED_STATES)`. -/
def finished_jobs (b : Build) : Nat :=
  (b.jobs.filter (fun j => JOB_FINISHED_STATES.contains j.state)).length

/-- Round half to even of `num / den` computed on integers (executable form;
`pctInt_eq_rhe` proves it equal to `rhe` of the exact rational). -/
def pctInt (fj tj : ℕ) : ℤ :=
  if 2 * ((100 * fj : ℤ) % (tj : ℤ)) < (tj : ℤ) then (100 * fj : ℤ) / (tj : ℤ)
  else if (tj : ℤ) < 2 * ((100 * fj : ℤ) % (tj : ℤ)) then
    (100 * fj : ℤ) / (tj : ℤ) + 1
  else if ((100 * fj : ℤ) / (tj : ℤ)) % 2 = 0 then (100 * fj : ℤ) / (tj : ℤ)
  else (100 * fj : ℤ) / (tj : ℤ) + 1

/-- The integer printed by `f"{finished_jobs * 100/total_jobs : >6.0f}"`:
the exact rational rounded half to even. -/
def pct (b : Build) : ℤ :=
  pctInt (finished_jobs b) (total_jobs b)

/-- `display_build` of `display.py`.  Python raises `ZeroDivisionError` when
`total_jobs` is zero; that failure is modelled as `none`. -/
def display_build (b : Build) : Option String :=
  if total_jobs b = 0 then none
  else some
    (pyPadRight b.pipeline.name 50 ++ " " ++ pyPadRight (toString b.number) 10 ++
      pyRstrip (pyPadLeft (toString (pct b)) 6 ++ "% finished    " ++
        pyPadRight ("State: " ++ b.state) 20))

/-- The URL shape the spec states for a build page:
`{base_url}/{pipeline.slug}/builds/{number}`. -/
def spec_build_url (base_url slug : String) (number : Int) : String :=
  base_url ++ "/" ++ slug ++ "/builds/" ++ toString number

/-! ## The API client of `bk.py`

Each operation is parameterized by the decoded JSON response(s) the network
would deliver; the GraphQL requests an operation issues are returned as an
explicit log where a claim is about them. -/

/-- The `rest_base_url` class attribute of `Buildkite`. -/
def rest_base_url : String := "https://api.buildkite.com/v2"

/-- The `graphql_base_url` class attribute of `Buildkite`. -/
def graphql_base_url : String := "https://graphql.buildkite.com/v1"

/-- Decoded shape of the `data.pipeline.builds.edges` list of the
build-by-commit / build-by-branch GraphQL responses: each entry is one edge's
`node.url`. -/
structure BuildsEdgesResponse where
  edges : List String
deriving Repr, DecidableEq

/-- `Buildkite.get_build_url_from_commit`, as a function of the decoded
GraphQL response: raises (`Except.error`) exactly when the edge list is empty,
otherwise returns `edges[0]["node"]["url"]`. -/
def get_build_url_from_commit (commit_sha : String) (resp : BuildsEdgesResponse) :
    Except String String :=
  match resp.edges with
  | [] => Except.error ("No build found for commit " ++ commit_sha)
  | u :: _ => Except.ok u

/-- `Buildkite.get_build_url_from_branch`, as a function of the decoded
GraphQL response. -/
def get_build_url_from_branch (branch : String) (resp : BuildsEdgesResponse) :
    Except String String :=
  match resp.edges with
  | [] => Except.error ("No build found for branch " ++ branch)
  | u :: _ => Except.ok u

/-! ### `get_user_builds` -/

/-- Decoded `pipeline` object of one build node of the viewer's-builds
response. -/
structure PipelineNode where
  name : String
  color : String
  slug : String
deriving Repr, DecidableEq

/-- Decoded job node of the viewer's-builds response. -/
structure JobNode where
  state : String
  passed : Bool
deriving Repr, DecidableEq

/-- Decoded build node of the viewer's-builds response. -/
structure BuildNode where
  pipeline : PipelineNode
  message : String
  number : Int
  state : String
  jobs : List JobNode
deriving Repr, DecidableEq

/-- Decoded `data.viewer.user.builds.edges` of the viewer's-builds response. -/
structure UserBuildsResponse where
  edges : List BuildNode
deriving Repr, DecidableEq

/-- The `state_filters` value `get_user_builds` puts in the GraphQL
variables: `[]` when `show_finished` else `BUILD_RUNNING_STATES`. -/
def state_filters (show_finished : Bool) : List String :=
  if show_finished then [] else BUILD_RUNNING_STATES

/-- The per-edge translation loop body of `get_user_builds`: one `BuildNode`
becomes one `Build` (jobs translated in order). -/
def parse_build (n : BuildNode) : Build :=
  { number := n.number
    commit_message := n.message
    pipeline := ⟨n.pipeline.name, n.pipeline.color, n.pipeline.slug⟩
    state := n.state
    jobs := n.jobs.map (fun j => ⟨j.state, j.passed⟩) }

/-- `Buildkite.get_user_builds`: sends variables `{limit, state_filters}` to
the GraphQL API (modelled by `api`) and translates the returned edges in
order. -/
def get_user_builds (limit : Int) (show_finished : Bool)
    (api : Int → List String → UserBuildsResponse) : List Build :=
  ((api limit (state_filters show_finished)).edges).map parse_build

/-! ### `get_job_artifact_count` / `get_job_artifacts` -/

/-- One GraphQL request issued by the artifact operations. -/
inductive GqlRequest where
  | artifactCount (job_id : String)
  | artifactsPage (job_id : String) (first : Nat)
deriving Repr, DecidableEq

/-- Decoded artifact edge (`node.downloadURL`). -/
structure ArtifactEdge where
  downloadURL : String
deriving Repr, DecidableEq

/-- Python's `re.search(pattern, s)` viewed as a Boolean (match object
truthiness): the pattern matches at some position inside `s`, i.e. it matches
some contiguous substring.  The pattern is a `RegularExpression Char`
(`re.compile`d form). -/
def reSearch (r : RegularExpression Char) (s : List Char) : Bool :=
  s.tails.any (fun t => t.inits.any (fun p => r.rmatch p))

/-- The list-comprehension condition of `get_job_artifacts`:
`regex_filter is None or re.search(regex_filter, edge["node"]["downloadURL"])`. -/
def keep_edge (regex_filter : Option (RegularExpression Char)) (e : ArtifactEdge) : Bool :=
  match regex_filter with
  | none => true
  | some r => reSearch r e.downloadURL.toList

/-- `Buildkite.get_job_artifact_count`: one GraphQL request, returning the
`data.job.artifacts.count` field of the response (`countResp`). -/
def get_job_artifact_count (job_id : String) (countResp : Nat) :
    Nat × List GqlRequest :=
  (countResp, [GqlRequest.artifactCount job_id])

/-- `Buildkite.get_job_artifacts`: calls `get_job_artifact_count`; on zero
returns `[]` with no further request; otherwise issues one paged request for
exactly `artifact_count` edges (`pageResp first` models the edges returned for
`artifacts(first: $artifact_count)`) and keeps the edges passing
`keep_edge`. -/
def get_job_artifacts (job_id : String)
    (regex_filter : Option (RegularExpression Char)) (countResp : Nat)
    (pageResp : Nat → List ArtifactEdge) : List ArtifactEdge × List GqlRequest :=
  let res := get_job_artifact_count job_id countResp
  let artifact_count := res.1
  if artifact_count = 0 then ([], res.2)
  else
    ((pageResp artifact_count).filter (keep_edge regex_filter),
      res.2 ++ [GqlRequest.artifactsPage job_id artifact_count])

/-! ### The `Buildkite` client object

Python's `Buildkite` instance carries `org_name` and `headers`, set once in
`__init__` and never assigned afterwards.  Each public operation is given in
state-passing style (returning the instance it leaves behind next to its
result), so that absence of mutation is a provable statement rather than a
modelling assumption. -/

/-- The `Buildkite` instance state: the fields `__init__` assigns. -/
structure Buildkite where
  org_name : String
  headers : List (String × String)
deriving Repr, DecidableEq

/-- `Buildkite.__init__`. -/
def Buildkite.init (org_name buildkite_token : String) : Buildkite :=
  { org_name := org_name
    headers := [("Authorization", "Bearer " ++ buildkite_token),
                ("Content-Type", "application/json")] }

/-- The HTTP POST `_graphql_post` sends (endpoint and headers; body omitted). -/
structure HttpPost where
  url : String
  headers : List (String × String)
deriving Repr, DecidableEq

/-- The request `_graphql_post` builds from the instance state. -/
def Buildkite.graphql_request (c : Buildkite) : HttpPost :=
  ⟨graphql_base_url, c.headers⟩

/-- `get_job_artifact_count` as an operation on the instance. -/
def Buildkite.get_job_artifact_count_op (c : Buildkite) (job_id : String)
    (countResp : Nat) : Buildkite × Nat :=
  (c, (get_job_artifact_count job_id countResp).1)

/-- `get_job_artifacts` as an operation on the instance. -/
def Buildkite.get_job_artifacts_op (c : Buildkite) (job_id : String)
    (regex_filter : Option (RegularExpression Char)) (countResp : Nat)
    (pageResp : Nat → List ArtifactEdge) : Buildkite × List ArtifactEdge :=
  (c, (get_job_artifacts job_id regex_filter countResp pageResp).1)

/-- `get_build_data`: REST GET of the build JSON (the response is modelled by
`api`, keyed by the requested URL, which the code builds from the instance's
`org_name`). -/
def Buildkite.get_build_data_op (c : Buildkite) (pipeline_slug : String)
    (build_id : Int) (api : String → String) : Buildkite × String :=
  (c, api (rest_base_url ++ "/organizations/" ++ c.org_name ++ "/pipelines/" ++
    pipeline_slug ++ "/builds/" ++ toString build_id ++ "?include_retried_jobs=true"))

/-- `get_artifact_content`: authenticated GET returning the raw body. -/
def Buildkite.get_artifact_content_op (c : Buildkite) (artifact_url : String)
    (api : String → List Nat) : Buildkite × List Nat :=
  (c, api artifact_url)

/-- `create_build`: REST POST returning the decoded response. -/
def Buildkite.create_build_op (c : Buildkite) (pipeline_slug : String)
    (env : String) (api : String → String → String) : Buildkite × String :=
  (c, api (rest_base_url ++ "/organizations/" ++ c.org_name ++ "/pipelines/" ++
    pipeline_slug ++ "/builds") env)

/-- `get_build_url_from_commit` as an operation on the instance. -/
def Buildkite.get_build_url_from_commit_op (c : Buildkite) (commit_sha : String)
    (resp : BuildsEdgesResponse) : Buildkite × Except String String :=
  (c, get_build_url_from_commit commit_sha resp)

/-- `get_build_url_from_branch` as an operation on the instance. -/
def Buildkite.get_build_url_from_branch_op (c : Buildkite) (branch : String)
    (resp : BuildsEdgesResponse) : Buildkite × Except String String :=
  (c, get_build_url_from_branch branch resp)

/-- `get_user_builds` as an operation on the instance. -/
def Buildkite.get_user_builds_op (c : Buildkite) (limit : Int)
    (show_finished : Bool) (api : Int → List String → UserBuildsResponse) :
    Buildkite × List Build :=
  (c, get_user_builds limit show_finished api)

/-! ### Concrete fixture builds used in witnesses and counterexamples -/

/-- The spec's own formatter example: two jobs, one finished. -/
def twoJobBuild : Build :=
  ⟨1, "msg", ⟨"p", "c", "s"⟩, "RUNNING",
    [⟨"FINISHED", true⟩, ⟨"RUNNING", false⟩]⟩

/-- Eight jobs with one finished: `100 * 1 / 8 = 12.5`, an exact rounding
tie. -/
def eightJobBuild : Build :=
  ⟨1, "msg", ⟨"p", "c", "s"⟩, "RUNNING",
    [⟨"FINISHED", true⟩, ⟨"RUNNING", false⟩, ⟨"RUNNING", false⟩,
     ⟨"RUNNING", false⟩, ⟨"RUNNING", false⟩, ⟨"RUNNING", false⟩,
     ⟨"RUNNING", false⟩, ⟨"RUNNING", false⟩]⟩

/-! ## Claim theorems -/

/-- `pctInt` computes round-half-even of the exact rational
`100 * fj / tj`. -/
theorem pctInt_eq_rhe (fj tj : ℕ) (h : 0 < tj) :
    pctInt fj tj = rhe ((100 * fj : ℚ) / (tj : ℚ)) := by
  have htq : (0 : ℚ) < (tj : ℚ) := by exact_mod_cast h
  have hfloor : ⌊(100 * fj : ℚ) / (tj : ℚ)⌋ = (100 * fj : ℤ) / (tj : ℤ) := by
    rw [show ((100 * fj : ℚ)) = (((100 * (fj : ℤ)) : ℤ) : ℚ) by push_cast; ring]
    exact_mod_cast Rat.floor_intCast_div_natCast (100 * (fj : ℤ)) tj
  have hfract : (100 * fj : ℚ) / (tj : ℚ) - ((100 * fj : ℤ) / (tj : ℤ) : ℤ) =
      (((100 * fj : ℤ) % (tj : ℤ) : ℤ) : ℚ) / (tj : ℚ) := by
    rw [Int.emod_def]
    push_cast
    field_simp
  have key1 : ∀ a : ℤ, ((a : ℚ) / (tj : ℚ) < 1 / 2 ↔ 2 * a < (tj : ℤ)) := by
    intro a
    rw [div_lt_iff₀ htq]
    constructor
    · intro hx
      have hx2 : ((2 * a : ℤ) : ℚ) < (((tj : ℕ) : ℤ) : ℚ) := by push_cast; linarith
      exact_mod_cast hx2
    · intro hx
      have hx2 : ((2 * a : ℤ) : ℚ) < (((tj : ℕ) : ℤ) : ℚ) := by exact_mod_cast hx
      push_cast at hx2
      linarith
  have key2 : ∀ a : ℤ, (1 / 2 < (a : ℚ) / (tj : ℚ) ↔ (tj : ℤ) < 2 * a) := by
    intro a
    rw [lt_div_iff₀ htq]
    constructor
    · intro hx
      have hx2 : (((tj : ℕ) : ℤ) : ℚ) < ((2 * a : ℤ) : ℚ) := by push_cast; linarith
      exact_mod_cast hx2
    · intro hx
      have hx2 : (((tj : ℕ) : ℤ) : ℚ) < ((2 * a : ℤ) : ℚ) := by exact_mod_cast hx
      push_cast at hx2
      linarith
  rw [rhe, hfloor, hfract]
  simp only [key1, key2]
  rw [pctInt]

/-- Away from exact halves, round-half-even agrees with the round function
`⌊q + 1/2⌋`. -/
theorem rhe_eq_round_of_ne_half (q : ℚ) (h : q - ⌊q⌋ ≠ 1 / 2) :
    rhe q = round q := by
  rw [round_eq, rhe]
  rcases lt_trichotomy (q - ⌊q⌋) (1 / 2) with hlt | heq | hgt
  · rw [if_pos hlt]
    symm
    rw [Int.floor_eq_iff]
    constructor
    · linarith [Int.floor_le q]
    · linarith
  · exact absurd heq h
  · rw [if_neg (by linarith), if_pos hgt]
    symm
    rw [Int.floor_eq_iff]
    constructor
    · push_cast
      linarith
    · push_cast
      linarith [Int.lt_floor_add_one q]

/-- `pctInt` stays within `[0, 100]` when at most all jobs are finished. -/
theorem pctInt_bounds (fj tj : ℕ) (h : 0 < tj) (hle : fj ≤ tj) :
    0 ≤ pctInt fj tj ∧ pctInt fj tj ≤ 100 := by
  have hne : ((tj : ℕ) : ℤ) ≠ 0 := by exact_mod_cast h.ne'
  have hpos : (0 : ℤ) < (tj : ℤ) := by exact_mod_cast h
  have h1 := Int.emod_add_ediv (100 * (fj : ℤ)) (tj : ℤ)
  have h2 := Int.emod_nonneg (100 * (fj : ℤ)) hne
  have h3 := Int.emod_lt_of_pos (100 * (fj : ℤ)) hpos
  have hle' : (100 * (fj : ℤ)) ≤ 100 * (tj : ℤ) := by
    have := Nat.mul_le_mul_left 100 hle
    exact_mod_cast this
  rw [pctInt]
  split_ifs <;> constructor <;> nlinarith [h1, h2, h3, hle']

/-- A build has no more finished jobs than jobs. -/
theorem finished_le_total (b : Build) : finished_jobs b ≤ total_jobs b :=
  List.length_filter_le _ _

/-- C1: the spec requires `display_build` not to fail on a build with zero
jobs, but the code divides `finished_jobs * 100` by `total_jobs = 0` and
raises `ZeroDivisionError` (modelled as `none`): evaluating the formatter at a
concrete zero-job build yields no output line. -/
theorem display_build_zero_jobs_fails :
    display_build ⟨1, "msg", ⟨"pipe", "blue", "slug"⟩, "RUNNING", []⟩ = none ∧
    total_jobs ⟨1, "msg", ⟨"pipe", "blue", "slug"⟩, "RUNNING", []⟩ = 0 := by
  constructor <;> rfl

/-- C2 (counterexample): `BASE_URL` already ends in the org segment
`/retool`, so a build whose pipeline slug is `"retool/my-pipeline"` gets the
org segment twice; its URL is not the one the claim's example states. -/
theorem build_url_example_counterexample :
    Build.url ⟨42, "", ⟨"", "", "retool/my-pipeline"⟩, "", []⟩ ≠
      "https://buildkite.com/retool/my-pipeline/builds/42" ∧
    Build.url ⟨42, "", ⟨"", "", "retool/my-pipeline"⟩, "", []⟩ =
      "https://buildkite.com/retool/retool/my-pipeline/builds/42" := by
  constructor <;> decide

/-- C2 (amended): every build URL has the shape
`{base_url}/{pipeline.slug}/builds/{number}` with
`base_url = "https://buildkite.com/retool"`; in particular a pipeline slug
`"my-pipeline"` with build number 42 yields
`https://buildkite.com/retool/my-pipeline/builds/42`. -/
theorem build_url_eq_spec_shape :
    (∀ b : Build, Build.url b = spec_build_url BASE_URL b.pipeline.slug b.number) ∧
    Build.url ⟨42, "", ⟨"", "", "my-pipeline"⟩, "", []⟩ =
      "https://buildkite.com/retool/my-pipeline/builds/42" := by
  exact ⟨fun b => rfl, by decide⟩

/-- C4: the commit/branch lookups raise the not-found error, whose message
carries the queried SHA or branch name as a substring, exactly when the
response's edge list is empty; otherwise they return the URL of the first
edge, ignoring the rest. -/
theorem get_build_url_not_found_iff (commit_sha branch : String)
    (rc rb : BuildsEdgesResponse) :
    ((∃ msg, get_build_url_from_commit commit_sha rc = Except.error msg ∧
        commit_sha.toList <:+: msg.toList) ↔ rc.edges = []) ∧
    (∀ u rest, rc.edges = u :: rest →
        get_build_url_from_commit commit_sha rc = Except.ok u) ∧
    ((∃ msg, get_build_url_from_branch branch rb = Except.error msg ∧
        branch.toList <:+: msg.toList) ↔ rb.edges = []) ∧
    (∀ u rest, rb.edges = u :: rest →
        get_build_url_from_branch branch rb = Except.ok u) := by
  obtain ⟨es⟩ := rc
  obtain ⟨es'⟩ := rb
  refine ⟨⟨?_, ?_⟩, ?_, ⟨?_, ?_⟩, ?_⟩
  · rintro ⟨msg, hmsg, -⟩
    cases es with
    | nil => rfl
    | cons u rest => simp [get_build_url_from_commit] at hmsg
  · rintro rfl
    refine ⟨"No build found for commit " ++ commit_sha, rfl, ?_⟩
    exact List.IsSuffix.isInfix ⟨"No build found for commit ".toList, rfl⟩
  · rintro u rest rfl
    rfl
  · rintro ⟨msg, hmsg, -⟩
    cases es' with
    | nil => rfl
    | cons u rest => simp [get_build_url_from_branch] at hmsg
  · rintro rfl
    refine ⟨"No build found for branch " ++ branch, rfl, ?_⟩
    exact List.IsSuffix.isInfix ⟨"No build found for branch ".toList, rfl⟩
  · rintro u rest rfl
    rfl

/-- C4 (witness): the lookup for commit SHA `"abc123"` against an empty edge
list produces the not-found error containing `"abc123"`. -/
theorem get_build_url_not_found_iff_witness :
    ∃ msg, get_build_url_from_commit "abc123" ⟨[]⟩ = Except.error msg ∧
      "abc123".toList <:+: msg.toList :=
  ((get_build_url_not_found_iff "abc123" "main" ⟨[]⟩ ⟨["u"]⟩).1).mpr rfl

/-- C6: with a zero artifact count `get_job_artifacts` returns `[]` after the
count request only; with a nonzero count it issues exactly one further paged
request asking for exactly `countResp` edges. -/
theorem get_job_artifacts_requests (job_id : String)
    (regex_filter : Option (RegularExpression Char)) (countResp : Nat)
    (pageResp : Nat → List ArtifactEdge) :
    (countResp = 0 →
      get_job_artifacts job_id regex_filter countResp pageResp =
        ([], [GqlRequest.artifactCount job_id])) ∧
    (countResp ≠ 0 →
      (get_job_artifacts job_id regex_filter countResp pageResp).2 =
        [GqlRequest.artifactCount job_id,
          GqlRequest.artifactsPage job_id countResp]) := by
  constructor
  · intro h
    simp [get_job_artifacts, get_job_artifact_count, h]
  · intro h
    simp [get_job_artifacts, get_job_artifact_count, h]

/-- C6 (witness): concrete zero-count and nonzero-count runs. -/
theorem get_job_artifacts_requests_witness :
    get_job_artifacts "job-a" none 0 (fun _ => []) =
      ([], [GqlRequest.artifactCount "job-a"]) ∧
    (get_job_artifacts "job-b" none 3 (fun _ => [⟨"u"⟩])).2 =
      [GqlRequest.artifactCount "job-b", GqlRequest.artifactsPage "job-b" 3] :=
  ⟨(get_job_artifacts_requests "job-a" none 0 (fun _ => [])).1 rfl,
   (get_job_artifacts_requests "job-b" none 3 (fun _ => [⟨"u"⟩])).2 (by decide)⟩

/-- C7: with no filter `get_job_artifacts` passes the response edges through
unchanged (no deduplication); with a filter it returns exactly the
`List.filter` of the edges by the search predicate, which is a sublist of the
response, so original relative order is preserved. -/
theorem get_job_artifacts_filter_behavior (job_id : String) (countResp : Nat)
    (pageResp : Nat → List ArtifactEdge) (r : RegularExpression Char)
    (h : countResp ≠ 0) :
    (get_job_artifacts job_id none countResp pageResp).1 = pageResp countResp ∧
    (get_job_artifacts job_id (some r) countResp pageResp).1 =
      (pageResp countResp).filter (fun e => reSearch r e.downloadURL.toList) ∧
    List.Sublist (get_job_artifacts job_id (some r) countResp pageResp).1
      (pageResp countResp) := by
  refine ⟨?_, ?_, ?_⟩
  · simp [get_job_artifacts, get_job_artifact_count, h, keep_edge]
  · simp only [get_job_artifacts, get_job_artifact_count, h, if_neg, if_false]
    rfl
  · rw [show (get_job_artifacts job_id (some r) countResp pageResp).1 =
        (pageResp countResp).filter (keep_edge (some r)) by
      simp [get_job_artifacts, get_job_artifact_count, h]]
    exact List.filter_sublist _

/-- C7 (witness): a concrete two-edge response filtered by the literal
pattern `log` keeps exactly the matching edge, in order. -/
theorem get_job_artifacts_filter_behavior_witness :
    (get_job_artifacts "j" none 2 (fun _ => [⟨"a.log"⟩, ⟨"b.txt"⟩])).1 =
      [⟨"a.log"⟩, ⟨"b.txt"⟩] :=
  (get_job_artifacts_filter_behavior "j" 2 (fun _ => [⟨"a.log"⟩, ⟨"b.txt"⟩])
    (RegularExpression.char 'a') (by decide)).1

/-- C10: every public client operation returns the `Buildkite` instance
unchanged — `org_name`, the headers mapping and hence the request each
subsequent `_graphql_post` would send are identical before and after any
call, and the base-URL constants are fixed. -/
theorem client_ops_preserve_state (c : Buildkite)
    (job_id commit_sha branch pipeline_slug artifact_url env : String)
    (regex_filter : Option (RegularExpression Char)) (countResp : Nat)
    (pageResp : Nat → List ArtifactEdge) (build_id limit : Int)
    (show_finished : Bool) (rc : BuildsEdgesResponse)
    (ubApi : Int → List String → UserBuildsResponse)
    (restApi : String → String) (bytesApi : String → List Nat)
    (postApi : String → String → String) :
    (c.get_job_artifact_count_op job_id countResp).1 = c ∧
    (c.get_job_artifacts_op job_id regex_filter countResp pageResp).1 = c ∧
    (c.get_build_data_op pipeline_slug build_id restApi).1 = c ∧
    (c.get_artifact_content_op artifact_url bytesApi).1 = c ∧
    (c.create_build_op pipeline_slug env postApi).1 = c ∧
    (c.get_build_url_from_commit_op commit_sha rc).1 = c ∧
    (c.get_build_url_from_branch_op branch rc).1 = c ∧
    (c.get_user_builds_op limit show_finished ubApi).1 = c ∧
    ((c.get_user_builds_op limit show_finished ubApi).1).graphql_request =
      c.graphql_request ∧
    ((c.get_job_artifacts_op job_id regex_filter countResp pageResp).1).headers =
      c.headers ∧
    ((c.get_user_builds_op limit show_finished ubApi).1).org_name = c.org_name ∧
    rest_base_url = "https://api.buildkite.com/v2" ∧
    graphql_base_url = "https://graphql.buildkite.com/v1" :=
  ⟨rfl, rfl, rfl, rfl, rfl, rfl, rfl, rfl, rfl, rfl, rfl, rfl, rfl⟩

/-- C3: assuming the GraphQL server honours the variables sent
(`builds(first: $limit, state: $state_filter)` returns at most `limit` edges,
all of whose states lie in a nonempty `state_filter`), `get_user_builds` with
`show_finished = false` returns only builds in the running/pending state set,
and with `show_finished = true` sends no state filter and returns the API's
edges translated in order, truncated to `limit`. -/
theorem get_user_builds_state_filter_behavior (limit : Int) (show_finished : Bool)
    (api : Int → List String → UserBuildsResponse)
    (hstate : ∀ n ∈ (api limit (state_filters show_finished)).edges,
        state_filters show_finished ≠ [] → n.state ∈ state_filters show_finished)
    (hlen : ((api limit (state_filters show_finished)).edges.length : Int) ≤ limit) :
    (show_finished = false →
      ∀ b ∈ get_user_builds limit show_finished api,
        b.state ∈ BUILD_RUNNING_STATES) ∧
    (show_finished = true →
      get_user_builds limit show_finished api =
        ((api limit []).edges).map parse_build) ∧
    ((get_user_builds limit show_finished api).length : Int) ≤ limit := by
  refine ⟨?_, ?_, ?_⟩
  · rintro rfl b hb
    rw [get_user_builds, List.mem_map] at hb
    obtain ⟨n, hn, rfl⟩ := hb
    have hmem := hstate n hn (by simp [state_filters, BUILD_RUNNING_STATES])
    simpa [state_filters, parse_build] using hmem
  · rintro rfl
    rw [get_user_builds, state_filters]
    simp
  · simpa [get_user_builds] using hlen

/-- C3 (witness): a concrete conforming API response with one `RUNNING` build
at `limit = 10`, `show_finished = false`: the returned build's state is in the
running set and the result respects the limit. -/
theorem get_user_builds_state_filter_behavior_witness :
    (parse_build ⟨⟨"p", "c", "s"⟩, "m", 1, "RUNNING", []⟩).state ∈
      BUILD_RUNNING_STATES ∧
    ((get_user_builds 10 false
      (fun _ _ => ⟨[⟨⟨"p", "c", "s"⟩, "m", 1, "RUNNING", []⟩]⟩)).length : Int) ≤ 10 :=
  ⟨(get_user_builds_state_filter_behavior 10 false
      (fun _ _ => ⟨[⟨⟨"p", "c", "s"⟩, "m", 1, "RUNNING", []⟩]⟩)
      (by decide) (by decide)).1 rfl
      (parse_build ⟨⟨"p", "c", "s"⟩, "m", 1, "RUNNING", []⟩) (by decide),
   (get_user_builds_state_filter_behavior 10 false
      (fun _ _ => ⟨[⟨⟨"p", "c", "s"⟩, "m", 1, "RUNNING", []⟩]⟩)
      (by decide) (by decide)).2.2⟩

/-- `reSearch` (the model of `re.search`) accepts exactly the strings with a
contiguous substring in the pattern's language. -/
theorem reSearch_iff_exists_substring (r : RegularExpression Char) (s : List Char) :
    reSearch r s = true ↔
      ∃ pre mid post, s = pre ++ mid ++ post ∧ mid ∈ r.matches' := by
  rw [reSearch, List.any_eq_true]
  constructor
  · rintro ⟨t, ht, hp⟩
    rw [List.mem_tails] at ht
    rw [List.any_eq_true] at hp
    obtain ⟨p, hpmem, hpm⟩ := hp
    rw [List.mem_inits] at hpmem
    obtain ⟨post, rfl⟩ := hpmem
    obtain ⟨pre, rfl⟩ := ht
    exact ⟨pre, p, post, by simp,
      (RegularExpression.rmatch_iff_matches' r p).mp hpm⟩
  · rintro ⟨pre, mid, post, rfl, hm⟩
    refine ⟨mid ++ post, ?_, ?_⟩
    · rw [List.mem_tails]
      exact ⟨pre, by simp⟩
    · rw [List.any_eq_true]
      exact ⟨mid, by rw [List.mem_inits]; exact ⟨post, rfl⟩,
        (RegularExpression.rmatch_iff_matches' r mid).mpr hm⟩

/-- C9: `get_job_artifacts` keeps a URL exactly when the pattern matches some
contiguous substring of it (search semantics, not whole-string match), and the
empty pattern (`epsilon`) keeps every URL. -/
theorem get_job_artifacts_search_semantics (job_id : String) (countResp : Nat)
    (pageResp : Nat → List ArtifactEdge) (r : RegularExpression Char)
    (h : countResp ≠ 0) :
    (∀ e, e ∈ (get_job_artifacts job_id (some r) countResp pageResp).1 ↔
      e ∈ pageResp countResp ∧
        ∃ pre mid post, e.downloadURL.toList = pre ++ mid ++ post ∧
          mid ∈ r.matches') ∧
    (get_job_artifacts job_id (some RegularExpression.epsilon) countResp
        pageResp).1 = pageResp countResp := by
  constructor
  · intro e
    rw [show (get_job_artifacts job_id (some r) countResp pageResp).1 =
        (pageResp countResp).filter (keep_edge (some r)) by
      simp [get_job_artifacts, get_job_artifact_count, h]]
    rw [List.mem_filter, keep_edge, reSearch_iff_exists_substring]
  · rw [show (get_job_artifacts job_id (some RegularExpression.epsilon) countResp
        pageResp).1 =
        (pageResp countResp).filter (keep_edge (some RegularExpression.epsilon)) by
      simp [get_job_artifacts, get_job_artifact_count, h]]
    apply List.filter_eq_self.mpr
    intro e _
    rw [keep_edge, reSearch_iff_exists_substring]
    exact ⟨[], [], e.downloadURL.toList, rfl, by
      simp [RegularExpression.matches'_epsilon, Language.mem_one]⟩

/-- C9 (witness): the URL `"a.log"` is kept by the pattern `log` because it
matches the substring at positions 2–4, and the empty pattern keeps every
URL of a concrete response. -/
theorem get_job_artifacts_search_semantics_witness :
    (⟨"a.log"⟩ : ArtifactEdge) ∈ (get_job_artifacts "j"
      (some (RegularExpression.char 'l' * RegularExpression.char 'o' *
        RegularExpression.char 'g')) 1 (fun _ => [⟨"a.log"⟩])).1 ∧
    (get_job_artifacts "j" (some RegularExpression.epsilon) 1
      (fun _ => [⟨"u"⟩])).1 = [⟨"u"⟩] :=
  ⟨((get_job_artifacts_search_semantics "j" 1 (fun _ => [⟨"a.log"⟩])
      (RegularExpression.char 'l' * RegularExpression.char 'o' *
        RegularExpression.char 'g') (by decide)).1 ⟨"a.log"⟩).mpr
    ⟨by decide, ['a', '.'], ['l', 'o', 'g'], [], by decide,
      (RegularExpression.rmatch_iff_matches' _ _).mp (by decide)⟩,
   (get_job_artifacts_search_semantics "j" 1 (fun _ => [⟨"u"⟩])
      RegularExpression.epsilon (by decide)).2⟩

/-- C5 (counterexample): Python renders `100 * 1 / 8 = 12.5` with `%.0f` as
`12` (round half to even), but standard rounding `round` gives `13`: the
eight-job build with one finished job displays `12% finished`. -/
theorem display_pct_rounding_counterexample :
    finished_jobs eightJobBuild = 1 ∧ total_jobs eightJobBuild = 8 ∧
    pct eightJobBuild = 12 ∧
    display_build eightJobBuild =
      some "p                                                  1             12% finished    State: RUNNING" ∧
    round ((100 * finished_jobs eightJobBuild : ℚ) /
      (total_jobs eightJobBuild : ℚ)) = 13 := by
  refine ⟨rfl, rfl, by decide, by decide, ?_⟩
  rw [show finished_jobs eightJobBuild = 1 from rfl,
    show total_jobs eightJobBuild = 8 from rfl]
  norm_num [round_eq]

/-- C5 (amended): for builds with `N > 0` jobs of which `F` are finished, the
displayed percentage is `100 * F / N` rounded half to even (the rounding
Python's float formatting applies), which lies in `[0, 100]` and agrees with
standard rounding `round(100 * F / N)` whenever `100 * F / N` is not exactly
half-integral. -/
theorem display_pct_half_even_bounds (b : Build) (h : 0 < total_jobs b) :
    pct b = rhe ((100 * finished_jobs b : ℚ) / (total_jobs b : ℚ)) ∧
    0 ≤ pct b ∧ pct b ≤ 100 ∧
    ((100 * finished_jobs b : ℚ) / (total_jobs b : ℚ) -
        ⌊(100 * finished_jobs b : ℚ) / (total_jobs b : ℚ)⌋ ≠ 1 / 2 →
      pct b = round ((100 * finished_jobs b : ℚ) / (total_jobs b : ℚ))) := by
  obtain ⟨h0, h100⟩ := pctInt_bounds (finished_jobs b) (total_jobs b) h
    (finished_le_total b)
  refine ⟨pctInt_eq_rhe _ _ h, h0, h100, ?_⟩
  intro hne
  rw [pct, pctInt_eq_rhe _ _ h]
  exact rhe_eq_round_of_ne_half _ hne

/-- C5 (witness): the spec's two-job example displays 50%, within
`[0, 100]`. -/
theorem display_pct_half_even_bounds_witness :
    0 ≤ pct twoJobBuild ∧ pct twoJobBuild ≤ 100 ∧ pct twoJobBuild = 50 :=
  ⟨(display_pct_half_even_bounds twoJobBuild (by decide)).2.1,
   (display_pct_half_even_bounds twoJobBuild (by decide)).2.2.1,
   by decide⟩

/-- Characters of a right-padded string are the original ones or spaces. -/
theorem mem_pyPadRight {c : Char} {s : String} {w : ℕ}
    (h : c ∈ (pyPadRight s w).toList) : c ∈ s.toList ∨ c = ' ' := by
  have h' : c ∈ s.toList ++ List.replicate (w - s.length) ' ' := h
  rcases List.mem_append.mp h' with h1 | h2
  · exact Or.inl h1
  · exact Or.inr (List.eq_of_mem_replicate h2)

/-- Characters of a left-padded string are the original ones or spaces. -/
theorem mem_pyPadLeft {c : Char} {s : String} {w : ℕ}
    (h : c ∈ (pyPadLeft s w).toList) : c ∈ s.toList ∨ c = ' ' := by
  have h' : c ∈ List.replicate (w - s.length) ' ' ++ s.toList := h
  rcases List.mem_append.mp h' with h1 | h2
  · exact Or.inr (List.eq_of_mem_replicate h1)
  · exact Or.inl h2

/-- `pyRstrip` only removes characters. -/
theorem mem_pyRstrip {c : Char} {s : String} (h : c ∈ (pyRstrip s).toList) :
    c ∈ s.toList := by
  have h' : c ∈ s.toList.reverse.dropWhile pyIsSpace := by
    simpa [pyRstrip, String.toList] using h
  exact List.mem_reverse.mp ((List.dropWhile_sublist pyIsSpace).subset h')

/-- The last character after `pyRstrip` is not whitespace. -/
theorem pyRstrip_last_not_space {s : String} {c : Char}
    (h : (pyRstrip s).toList.getLast? = some c) : pyIsSpace c = false := by
  have h' : (s.toList.reverse.dropWhile pyIsSpace).head? = some c := by
    have h2 : (s.toList.reverse.dropWhile pyIsSpace).reverse.getLast? = some c := h
    rwa [List.getLast?_reverse] at h2
  have hd := List.head?_dropWhile_not pyIsSpace s.toList.reverse
  rw [h'] at hd
  exact hd

/-- `pyRstrip` leaves something behind when some character is
non-whitespace. -/
theorem pyRstrip_ne_nil {s : String}
    (h : ∃ c ∈ s.toList, pyIsSpace c = false) : (pyRstrip s).toList ≠ [] := by
  obtain ⟨c, hc, hcs⟩ := h
  intro hnil
  have hnil' : s.toList.reverse.dropWhile pyIsSpace = [] := by
    have : (s.toList.reverse.dropWhile pyIsSpace).reverse = [] := by
      simpa [pyRstrip, String.toList] using hnil
    simpa using this
  rw [List.dropWhile_eq_nil_iff] at hnil'
  have := hnil' c (List.mem_reverse.mpr hc)
  rw [hcs] at this
  exact Bool.false_ne_true this

/-- Decimal digit characters are digits. -/
theorem digitChar_isDigit {n : ℕ} (h : n < 10) :
    (Nat.digitChar n).isDigit = true := by
  interval_cases n <;> decide

/-- All characters produced by `Nat.toDigitsCore` in base 10 are digits. -/
theorem toDigitsCore_digits (fuel : ℕ) :
    ∀ (n : ℕ) (acc : List Char), (∀ c ∈ acc, c.isDigit = true) →
      ∀ c ∈ Nat.toDigitsCore 10 fuel n acc, c.isDigit = true := by
  induction fuel with
  | zero => exact fun n acc hacc c hc => hacc c hc
  | succ f ih =>
    intro n acc hacc c hc
    have hd : (Nat.digitChar (n % 10)).isDigit = true :=
      digitChar_isDigit (Nat.mod_lt n (by norm_num))
    have hcons : ∀ c' ∈ Nat.digitChar (n % 10) :: acc, c'.isDigit = true := by
      intro c' hc'
      rcases List.mem_cons.mp hc' with rfl | hmem
      · exact hd
      · exact hacc c' hmem
    rw [Nat.toDigitsCore] at hc
    split at hc
    · exact hcons c hc
    · exact ih (n / 10) _ hcons c hc

/-- All characters of `Nat.repr` are digits. -/
theorem nat_repr_digits (n : ℕ) : ∀ c ∈ (Nat.repr n).toList, c.isDigit = true :=
  fun c hc =>
    toDigitsCore_digits (n + 1) n [] (fun c' hc' => absurd hc' (List.not_mem_nil c')) c hc

/-- Characters of the decimal representation of an integer are digits or a
minus sign. -/
theorem int_toString_mem {i : ℤ} {c : Char}
    (h : c ∈ (toString i).toList) : c.isDigit = true ∨ c = '-' := by
  cases i with
  | ofNat m => exact Or.inl (nat_repr_digits m c h)
  | negSucc m =>
    rcases List.mem_append.mp h with h1 | h2
    · right
      simpa using h1
    · exact Or.inl (nat_repr_digits (m + 1) c h2)

/-- C8 (counterexample): `display_build` is not a total renderer — a build
with an empty job list yields no output line at all (Python raises
`ZeroDivisionError` before formatting). -/
theorem display_build_layout_counterexample :
    display_build ⟨2, "m", ⟨"pipeline-x", "green", "px"⟩, "PASSED", []⟩ = none := by
  rfl

/-- C8 (amended): for every build with at least one job, `display_build`
renders the pipeline name left-aligned in width 50, a space, the build number
left-aligned in width 10, the percentage right-aligned in width 6 with no
decimals followed by `% finished`, four spaces, and `State: {state}`
left-aligned in width 20 with the trailing whitespace of that second chunk
stripped; the line never ends in whitespace, and contains a newline only if
the pipeline name or the state themselves do. -/
theorem display_build_layout (b : Build) (h : b.jobs ≠ []) :
    ∃ s, display_build b = some s ∧
      s = pyPadRight b.pipeline.name 50 ++ " " ++
          pyPadRight (toString b.number) 10 ++
          pyRstrip (pyPadLeft (toString (pct b)) 6 ++ "% finished    " ++
            pyPadRight ("State: " ++ b.state) 20) ∧
      (∀ c, s.toList.getLast? = some c → pyIsSpace c = false) ∧
      ('\n' ∈ s.toList → '\n' ∈ b.pipeline.name.toList ∨
        '\n' ∈ b.state.toList) := by
  have ht : ¬ total_jobs b = 0 := fun hz => h (List.length_eq_zero.mp hz)
  refine ⟨_, by rw [display_build, if_neg ht], rfl, ?_, ?_⟩
  · intro c hlast
    have hne : (pyRstrip (pyPadLeft (toString (pct b)) 6 ++ "% finished    " ++
        pyPadRight ("State: " ++ b.state) 20)).toList ≠ [] := by
      apply pyRstrip_ne_nil
      refine ⟨'%', ?_, by decide⟩
      exact List.mem_append.mpr (Or.inl (List.mem_append.mpr (Or.inr (by decide))))
    rw [show (pyPadRight b.pipeline.name 50 ++ " " ++
        pyPadRight (toString b.number) 10 ++
        pyRstrip (pyPadLeft (toString (pct b)) 6 ++ "% finished    " ++
          pyPadRight ("State: " ++ b.state) 20)).toList =
        (pyPadRight b.pipeline.name 50 ++ " " ++
          pyPadRight (toString b.number) 10).toList ++
        (pyRstrip (pyPadLeft (toString (pct b)) 6 ++ "% finished    " ++
          pyPadRight ("State: " ++ b.state) 20)).toList from rfl,
      List.getLast?_append] at hlast
    cases hr : (pyRstrip (pyPadLeft (toString (pct b)) 6 ++ "% finished    " ++
        pyPadRight ("State: " ++ b.state) 20)).toList.getLast? with
    | none => exact absurd (List.getLast?_eq_none_iff.mp hr) hne
    | some x =>
      rw [hr] at hlast
      simp only [Option.or_some, Option.some.injEq] at hlast
      subst hlast
      exact pyRstrip_last_not_space hr
  · intro hnl
    have hnl2 : (('\n' ∈ (pyPadRight b.pipeline.name 50).toList ∨
        '\n' ∈ ([' '] : List Char)) ∨
        '\n' ∈ (pyPadRight (toString b.number) 10).toList) ∨
        '\n' ∈ (pyRstrip (pyPadLeft (toString (pct b)) 6 ++ "% finished    " ++
          pyPadRight ("State: " ++ b.state) 20)).toList := by
      have hs : (pyPadRight b.pipeline.name 50 ++ " " ++
          pyPadRight (toString b.number) 10 ++
          pyRstrip (pyPadLeft (toString (pct b)) 6 ++ "% finished    " ++
            pyPadRight ("State: " ++ b.state) 20)).toList =
          (((pyPadRight b.pipeline.name 50).toList ++ [' ']) ++
            (pyPadRight (toString b.number) 10).toList) ++
          (pyRstrip (pyPadLeft (toString (pct b)) 6 ++ "% finished    " ++
            pyPadRight ("State: " ++ b.state) 20)).toList := rfl
      rw [hs] at hnl
      rcases List.mem_append.mp hnl with h1 | h4
      · rcases List.mem_append.mp h1 with h2 | h3
        · exact Or.inl (Or.inl (List.mem_append.mp h2))
        · exact Or.inl (Or.inr h3)
      · exact Or.inr h4
    rcases hnl2 with (h1 | h2) | h3
    · rcases h1 with h1a | h1b
      · rcases mem_pyPadRight h1a with hx | hx
        · exact Or.inl hx
        · exact absurd hx (by decide)
      · exact absurd h1b (by decide)
    · rcases mem_pyPadRight h2 with hx | hx
      · rcases int_toString_mem hx with hd | hd
        · exact absurd hd (by decide)
        · exact absurd hd (by decide)
      · exact absurd hx (by decide)
    · have harg := mem_pyRstrip h3
      have hs2 : (pyPadLeft (toString (pct b)) 6 ++ "% finished    " ++
          pyPadRight ("State: " ++ b.state) 20).toList =
          ((pyPadLeft (toString (pct b)) 6).toList ++
            "% finished    ".toList) ++
          (pyPadRight ("State: " ++ b.state) 20).toList := rfl
      rw [hs2] at harg
      rcases List.mem_append.mp harg with h5 | h6
      · rcases List.mem_append.mp h5 with h7 | h8
        · rcases mem_pyPadLeft h7 with hx | hx
          · rcases int_toString_mem hx with hd | hd
            · exact absurd hd (by decide)
            · exact absurd hd (by decide)
          · exact absurd hx (by decide)
        · exact absurd h8 (by decide)
      · rcases mem_pyPadRight h6 with hx | hx
        · rcases List.mem_append.mp hx with h9 | h10
          · exact absurd h9 (by decide)
          · exact Or.inr h10
        · exact absurd hx (by decide)

/-- C8 (witness): the layout holds for the concrete two-job build. -/
theorem display_build_layout_witness :
    ∃ s, display_build twoJobBuild = some s ∧
      s = pyPadRight twoJobBuild.pipeline.name 50 ++ " " ++
          pyPadRight (toString twoJobBuild.number) 10 ++
          pyRstrip (pyPadLeft (toString (pct twoJobBuild)) 6 ++ "% finished    " ++
            pyPadRight ("State: " ++ twoJobBuild.state) 20) ∧
      (∀ c, s.toList.getLast? = some c → pyIsSpace c = false) ∧
      ('\n' ∈ s.toList → '\n' ∈ twoJobBuild.pipeline.name.toList ∨
        '\n' ∈ twoJobBuild.state.toList) :=
  display_build_layout twoJobBuild (by decide)

end BkCli
